import Mathlib

/-!
Shallow embedding of the supervision core of `src/bot.py` (the
"render_deployer" script): the persistent registry (`load_bots` /
`save_bots`), the process supervisor (`start_bot_process` /
`stop_bot_process`), the boot-time reconciler (`auto_restart_bots`) and
the `stop_all` / `restart_all` / log-tail branches of the `cb_query`
handler.

Modelling conventions:
* A registry (the Python dict `bots`) is an association list
  `List (String × BotInfo)` in insertion order; Python dict keys are
  unique, so theorems that need it take a `Nodup` hypothesis on the keys.
* A record (the Python per-bot dict) is a `BotInfo` structure whose
  fields are `Option`s, mirroring `info.get(...)` returning `None` when
  absent.  Python truthiness of `info.get("path")` / `info.get("pid")`
  is made explicit by `truthyPath` / `truthyPid` (both `None`, the empty
  string and the integer 0 are falsy).
* OS interaction (`Path(...).exists()`, `subprocess.Popen`,
  `os.getpgid` / `os.killpg` / `os.kill`) is an oracle environment of
  pure functions; a raising call is an `Except.error` / a `false`
  result.
* File-system side effects relevant to the claims (launch attempts,
  which create the per-name log files, and termination-signal attempts)
  are collected in an explicit `Effect` trace.
-/

set_option autoImplicit false
set_option maxRecDepth 4000

namespace RenderDeployer

/-- One registry record: the Python dict
`{"path": ..., "pid": ..., "log": ..., "err": ...}`; every field may be
absent (`info.get` returns `None`). -/
structure BotInfo where
  path : Option String
  pid : Option Int
  log : Option String
  err : Option String
  deriving DecidableEq, Repr

/-- The in-memory registry `bots`, in dict insertion order. -/
abbrev Registry := List (String × BotInfo)

/-- Python truthiness of `info.get("path")`: `None` and `""` are falsy. -/
def truthyPath : Option String → Option String
  | some p => if p = "" then none else some p
  | none => none

/-- Python truthiness of `info.get("pid")`: `None` and `0` are falsy. -/
def truthyPid : Option Int → Option Int
  | some p => if p = 0 then none else some p
  | none => none

/-- `DB_FILE = Path("bots_data.json")`. -/
def DB_FILE : String := "bots_data.json"

/-- `LOGS_DIR = Path("bot_logs")`. -/
def LOGS_DIR : String := "bot_logs"

/-- `LOGS_DIR / f"{bot_name}.log"` computed in `start_bot_process`. -/
def logPath (bot_name : String) : String := LOGS_DIR ++ "/" ++ bot_name ++ ".log"

/-- `LOGS_DIR / f"{bot_name}.err"` computed in `start_bot_process`. -/
def errPath (bot_name : String) : String := LOGS_DIR ++ "/" ++ bot_name ++ ".err"

/-- A file-system write operation, used to describe what `save_bots`
does to disk. -/
inductive FsOp where
  | write (path content : String)
  | rename (src dst : String)
  deriving DecidableEq, Repr

/-- Observable side effects of the supervisor operations:
`launch p n` is a `start_bot_process(p, n)` call (which opens/creates
`bot_logs/n.log` and `bot_logs/n.err` before spawning), `term pid` is a
`stop_bot_process(pid)` call. -/
inductive Effect where
  | launch (path name : String)
  | term (pid : Int)
  deriving DecidableEq, Repr

/-- The OS oracle: `pathExists p` is `Path(p).exists()`; `popen p n` is
the `subprocess.Popen` spawn inside `start_bot_process` (an
`Except.error` is a raised launch exception, an `Except.ok pid` the new
child's pid); `getpgid`, `killpg`, `kill` model the signal syscalls in
`stop_bot_process` (`none` / `false` is a raised `OSError`). -/
structure OsEnv where
  pathExists : String → Bool
  popen : String → String → Except Unit Int
  getpgid : Int → Option Int
  killpg : Int → Bool
  kill : Int → Bool

/--
`load_bots()`:
```
if DB_FILE.exists():
    try: return json.loads(DB_FILE.read_text())
    except Exception: return {}
return {}
```
`fileExists` is `DB_FILE.exists()`, and `parsed` the outcome of
`json.loads(DB_FILE.read_text())` (`none` when it raises, i.e. the
content is unparsable). -/
def load_bots (fileExists : Bool) (parsed : Option Registry) : Registry :=
  if fileExists then
    match parsed with
    | some r => r
    | none => []
  else []

/--
`save_bots(data)`: `DB_FILE.write_text(json.dumps(data, indent=2))` —
the list of file-system operations it performs, with `serialized`
standing for the `json.dumps` output. -/
def save_bots (serialized : String) : List FsOp :=
  [FsOp.write DB_FILE serialized]

/-- The write pattern the spec mandates for an atomic save: write the
content to a temporary path distinct from the destination, then rename
it into place. -/
def atomicTempRename (ops : List FsOp) (dst : String) : Prop :=
  ∃ tmp c, tmp ≠ dst ∧ ops = [FsOp.write tmp c, FsOp.rename tmp dst]

/--
`start_bot_process(bot_path, bot_name)`: opens the two log files in
append mode, spawns `[PY, bot_path]` in a fresh process group, and
returns `(pid, log, err, lf, ef)`.  The log/err paths are deterministic
in `bot_name`; the spawn outcome comes from the oracle. -/
def start_bot_process (env : OsEnv) (bot_path bot_name : String) :
    Except Unit (Int × String × String) :=
  match env.popen bot_path bot_name with
  | Except.ok pid => Except.ok (pid, logPath bot_name, errPath bot_name)
  | Except.error e => Except.error e

/--
`stop_bot_process(pid)`:
```
try:
    os.killpg(os.getpgid(pid), signal.SIGTERM); return True
except Exception:
    try: os.kill(pid, signal.SIGTERM); return True
    except Exception: return False
```
Also returns the trace of signal-delivery attempts, each paired with
whether the delivery succeeded: `(true, g)` a SIGTERM to process group
`g`, `(false, pid)` a SIGTERM to the single process `pid`. -/
def stop_bot_process (env : OsEnv) (pid : Int) :
    Bool × List (Bool × Int × Bool) :=
  match env.getpgid pid with
  | some g =>
    if env.killpg g then (true, [(true, g, true)])
    else if env.kill pid then (true, [(true, g, false), (false, pid, true)])
    else (false, [(true, g, false), (false, pid, false)])
  | none =>
    if env.kill pid then (true, [(false, pid, true)])
    else (false, [(false, pid, false)])

/-- The record update performed after a successful relaunch:
`info["pid"] = pid; info["log"] = log; info["err"] = err`. -/
def relaunched (name : String) (info : BotInfo) (pid : Int) : BotInfo :=
  { info with pid := some pid, log := some (logPath name), err := some (errPath name) }

/--
The `for name, info in list(bots.items())` loop of `auto_restart_bots`:
keeps each record (updated on successful launch, untouched on a caught
launch exception) and pops records whose `path` is falsy or does not
exist.  Returns the rebuilt registry and the effect trace. -/
def autoRestartLoop (env : OsEnv) : Registry → Registry × List Effect
  | [] => ([], [])
  | (name, info) :: rest =>
    match truthyPath info.path with
    | some path =>
      if env.pathExists path then
        match start_bot_process env path name with
        | Except.ok (pid, _, _) =>
          let r := autoRestartLoop env rest
          ((name, relaunched name info pid) :: r.1, Effect.launch path name :: r.2)
        | Except.error _ =>
          let r := autoRestartLoop env rest
          ((name, info) :: r.1, Effect.launch path name :: r.2)
      else
        autoRestartLoop env rest
    | none => autoRestartLoop env rest

/-- Result of one supervisor operation: the in-memory registry
afterwards, the effect trace, and the registry passed to `save_bots`
(`none` when `save_bots` was not reached). -/
structure RunResult where
  registry : Registry
  effects : List Effect
  saved : Option Registry
  deriving Repr

/--
`auto_restart_bots()`: early-returns (without saving) when `bots` is
empty, otherwise runs the relaunch loop over the records and finishes
with `save_bots(bots)`. -/
def auto_restart_bots (env : OsEnv) (bots : Registry) : RunResult :=
  if bots = [] then ⟨bots, [], none⟩
  else
    let r := autoRestartLoop env bots
    ⟨r.1, r.2, some r.1⟩

/--
The `stop_all` loop of `cb_query`:
```
count = 0
for name, info in list(bots.items()):
    pid = info.get("pid")
    if pid and stop_bot_process(pid): count += 1
```
Returns the reported count and the trace of `stop_bot_process` calls. -/
def stopAllLoop (env : OsEnv) : Registry → Nat × List Effect
  | [] => (0, [])
  | (_, info) :: rest =>
    let r := stopAllLoop env rest
    match truthyPid info.pid with
    | some pid =>
      ((if (stop_bot_process env pid).1 then 1 else 0) + r.1, Effect.term pid :: r.2)
    | none => r

/-- The `stop_all` branch of `cb_query`: runs the loop, then
`bots.clear()` and `save_bots(bots)` unconditionally.  Also returns the
reported count. -/
def cb_stop_all (env : OsEnv) (bots : Registry) : RunResult × Nat :=
  let r := stopAllLoop env bots
  (⟨[], r.2, some []⟩, r.1)

/--
The `restart_all` loop of `cb_query`: relaunches every record whose
`path` is truthy and exists, overwriting `pid`/`log`/`err` and counting
it; records with a falsy or missing path are left untouched.  A raised
launch exception is NOT caught here: the loop aborts, later records
stay unmodified, and the trailing `save_bots` is never reached — the
`Bool` is `true` iff the loop ran to completion. -/
def restartAllLoop (env : OsEnv) : Registry → Registry × Nat × List Effect × Bool
  | [] => ([], 0, [], true)
  | (name, info) :: rest =>
    match truthyPath info.path with
    | some path =>
      if env.pathExists path then
        match start_bot_process env path name with
        | Except.ok (pid, _, _) =>
          let r := restartAllLoop env rest
          ((name, relaunched name info pid) :: r.1, r.2.1 + 1,
            Effect.launch path name :: r.2.2.1, r.2.2.2)
        | Except.error _ =>
          ((name, info) :: rest, 0, [Effect.launch path name], false)
      else
        let r := restartAllLoop env rest
        ((name, info) :: r.1, r.2.1, r.2.2.1, r.2.2.2)
    | none =>
      let r := restartAllLoop env rest
      ((name, info) :: r.1, r.2.1, r.2.2.1, r.2.2.2)

/-- The `restart_all` branch of `cb_query`; `save_bots(bots)` runs only
when the loop completed without an uncaught launch exception. -/
def cb_restart_all (env : OsEnv) (bots : Registry) : RunResult × Nat :=
  let r := restartAllLoop env bots
  (⟨r.1, r.2.2.1, if r.2.2.2 then some r.1 else none⟩, r.2.1)

/--
The log-tail computation of the `log__` branch of `cb_query`, given the
log file's decoded lines (`content = f.read().decode(...).splitlines()`):
```
tail = "\n".join(content[-80:]) or "(empty)"
if len(tail) > 3900: tail = tail[-3900:]
```
-/
def cb_tail_log (content : List String) : String :=
  let t := String.intercalate "\n" (content.drop (content.length - 80))
  let t := if t = "" then "(empty)" else t
  if t.length > 3900 then t.drop (t.length - 3900) else t

/-- An entry the reconciler can relaunch successfully: its `path` is
truthy, the file exists, and the spawn succeeds. -/
def goodEntry (env : OsEnv) (e : String × BotInfo) : Prop :=
  ∃ p pid, truthyPath e.2.path = some p ∧ env.pathExists p = true ∧
    env.popen p e.1 = Except.ok pid

/-- Relation between a registry entry and its image under a successful
relaunch: same name, and the record is the old one with `pid`, `log`,
`err` overwritten by the fresh launch results. -/
def freshRel (env : OsEnv) (e r : String × BotInfo) : Prop :=
  r.1 = e.1 ∧ ∃ p pid, truthyPath e.2.path = some p ∧ env.pathExists p = true ∧
    env.popen p e.1 = Except.ok pid ∧ r.2 = relaunched e.1 e.2 pid

/-- Relation between a registry entry and its image under the
`restart_all` branch: same name, and the record is either untouched or
overwritten by a successful relaunch. -/
def restartRel (env : OsEnv) (e r : String × BotInfo) : Prop :=
  r.1 = e.1 ∧ (r.2 = e.2 ∨ ∃ p pid, truthyPath e.2.path = some p ∧
    env.pathExists p = true ∧ env.popen p e.1 = Except.ok pid ∧
    r.2 = relaunched e.1 e.2 pid)

/-- Whether a `stop_all` iteration counts this record: its `pid` is
truthy and `stop_bot_process` reported a successful signal delivery. -/
def stopSuccess (env : OsEnv) (e : String × BotInfo) : Bool :=
  match truthyPid e.2.pid with
  | some pid => (stop_bot_process env pid).1
  | none => false

end RenderDeployer

namespace RenderDeployer

section Theorems

/-- **C6** — `load_bots` returns the empty registry whenever the
snapshot file is absent or its content is unparsable; being a total
function, it never fails. -/
theorem load_bots_degrades_to_empty :
    (∀ parsed : Option Registry, load_bots false parsed = []) ∧
    (∀ fileExists : Bool, load_bots fileExists none = []) := by
  constructor
  · intro parsed
    simp [load_bots]
  · intro fileExists
    cases fileExists <;> simp [load_bots]

/-- **C1 counterexample** — `save_bots` does not write to a temporary
path and rename it into place: it performs a single direct write to the
canonical path. -/
theorem save_bots_no_temp_rename :
    ¬ atomicTempRename (save_bots "x") DB_FILE := by
  rintro ⟨tmp, c, hne, heq⟩
  simp [save_bots, atomicTempRename] at heq

/-- **C1 (amended)** — `save_bots` writes the serialized snapshot
directly to `bots_data.json` in one write (no temporary path, no
rename); a crash mid-write can leave unparsable content, but
`load_bots` maps any unparsable content to the empty registry, so the
on-disk state never ends up worse than one that loads as empty. -/
theorem save_bots_direct_write (s : String) :
    save_bots s = [FsOp.write DB_FILE s] ∧
    ¬ atomicTempRename (save_bots s) DB_FILE ∧
    (∀ fileExists : Bool, load_bots fileExists none = []) := by
  refine ⟨rfl, ?_, ?_⟩
  · rintro ⟨tmp, c, hne, heq⟩
    simp [save_bots, atomicTempRename] at heq
  · intro fileExists
    cases fileExists <;> simp [load_bots]

/-- **C4** — after the `stop_all` branch, the in-memory registry is
empty and the empty registry is what gets persisted, for every starting
registry and every outcome of the individual terminations. -/
theorem cb_stop_all_clears (env : OsEnv) (bots : Registry) :
    (cb_stop_all env bots).1.registry = [] ∧
    (cb_stop_all env bots).1.saved = some [] := by
  exact ⟨rfl, rfl⟩

/-- **C7** — `stop_bot_process` first attempts a group-targeted SIGTERM
(whenever the group id can be resolved, the first recorded attempt is
the group one), falls back to signaling the single pid exactly when the
group-targeted delivery failed, and returns `true` iff some attempted
delivery succeeded. -/
theorem stop_bot_process_spec (env : OsEnv) (pid : Int) :
    ((stop_bot_process env pid).1 = true ↔
      ∃ a ∈ (stop_bot_process env pid).2, a.2.2 = true) ∧
    (∀ g, env.getpgid pid = some g → env.killpg g = true →
      stop_bot_process env pid = (true, [(true, g, true)])) ∧
    (∀ p s, (false, p, s) ∈ (stop_bot_process env pid).2 → p = pid ∧
      (env.getpgid pid = none ∨
        ∃ g, env.getpgid pid = some g ∧ env.killpg g = false)) ∧
    (∀ g, env.getpgid pid = some g →
      ∃ l, (stop_bot_process env pid).2 = (true, g, env.killpg g) :: l) := by
  rcases h : env.getpgid pid with _ | g
  · cases hk : env.kill pid <;> simp [stop_bot_process, h, hk]
  · cases hg : env.killpg g
    · cases hk : env.kill pid <;> simp [stop_bot_process, h, hg, hk]
    · simp [stop_bot_process, h, hg]

/-- **C5 counterexample** — the log-tail branch does not return "the
last N lines" for a requested N: on a 200-line file it returns the last
80 lines (the count is hard-coded), not the last 5 the claim's scenario
requires. -/
theorem cb_tail_log_not_last_five :
    cb_tail_log (List.replicate 200 "x") ≠
      String.intercalate "\n" ((List.replicate 200 "x").drop 195) := by
  decide

/-- **C5 (amended)** — the log-tail branch has no line-count parameter:
it always takes the last 80 lines; whenever their newline-join is
nonempty and at most 3900 characters, that join is returned exactly, in
original order (otherwise it is replaced by "(empty)" or truncated to
its final 3900 characters). -/
theorem cb_tail_log_last_eighty (content : List String)
    (h1 : String.intercalate "\n" (content.drop (content.length - 80)) ≠ "")
    (h2 : (String.intercalate "\n" (content.drop (content.length - 80))).length ≤ 3900) :
    cb_tail_log content =
      String.intercalate "\n" (content.drop (content.length - 80)) := by
  unfold cb_tail_log
  simp only [if_neg h1]
  have : ¬ (String.intercalate "\n" (content.drop (content.length - 80))).length > 3900 := by
    omega
  simp only [if_neg this]

/-- **C5 witness** — on a concrete 200-line file the amended statement
evaluates: the result is exactly the join of the last 80 lines. -/
theorem cb_tail_log_last_eighty_witness :
    (String.intercalate "\n" ((List.replicate 200 "x").drop ((List.replicate 200 "x").length - 80)) ≠ "" ∧
     (String.intercalate "\n" ((List.replicate 200 "x").drop ((List.replicate 200 "x").length - 80))).length ≤ 3900) ∧
    cb_tail_log (List.replicate 200 "x") =
      String.intercalate "\n" ((List.replicate 200 "x").drop ((List.replicate 200 "x").length - 80)) :=
  ⟨⟨by decide, by decide⟩, cb_tail_log_last_eighty (List.replicate 200 "x") (by decide) (by decide)⟩

end Theorems

section LoopLemmas

/-- The reconciler loop pops a record whose `path` is falsy or whose
file does not exist, touching nothing else. -/
theorem autoRestartLoop_cons_skip (env : OsEnv) (name : String) (info : BotInfo)
    (rest : Registry)
    (h : ∀ p, truthyPath info.path = some p → env.pathExists p = false) :
    autoRestartLoop env ((name, info) :: rest) = autoRestartLoop env rest := by
  rcases htp : truthyPath info.path with _ | p
  · simp [autoRestartLoop, htp]
  · simp [autoRestartLoop, htp, h p htp]

/-- The reconciler loop, on a record whose launch succeeds, conses the
updated record and the launch effect. -/
theorem autoRestartLoop_cons_ok (env : OsEnv) (name : String) (info : BotInfo)
    (rest : Registry) (p : String) (pid : Int)
    (hp : truthyPath info.path = some p) (he : env.pathExists p = true)
    (ho : env.popen p name = Except.ok pid) :
    autoRestartLoop env ((name, info) :: rest) =
      ((name, relaunched name info pid) :: (autoRestartLoop env rest).1,
        Effect.launch p name :: (autoRestartLoop env rest).2) := by
  simp [autoRestartLoop, hp, he, start_bot_process, ho]

/-- The reconciler loop, on a record whose launch raises, keeps the
record untouched (the exception is caught) and still records the launch
attempt. -/
theorem autoRestartLoop_cons_err (env : OsEnv) (name : String) (info : BotInfo)
    (rest : Registry) (p : String)
    (hp : truthyPath info.path = some p) (he : env.pathExists p = true)
    (ho : env.popen p name = Except.error ()) :
    autoRestartLoop env ((name, info) :: rest) =
      ((name, info) :: (autoRestartLoop env rest).1,
        Effect.launch p name :: (autoRestartLoop env rest).2) := by
  simp [autoRestartLoop, hp, he, start_bot_process, ho]

/-- `auto_restart_bots` returns exactly the loop's rebuilt registry
(the early return on an empty dict returns the same empty registry). -/
theorem auto_restart_bots_registry (env : OsEnv) (l : Registry) :
    (auto_restart_bots env l).registry = (autoRestartLoop env l).1 := by
  rcases l with _ | ⟨hd, tl⟩
  · simp [auto_restart_bots, autoRestartLoop]
  · simp [auto_restart_bots]

/-- `auto_restart_bots` produces exactly the loop's effect trace. -/
theorem auto_restart_bots_effects (env : OsEnv) (l : Registry) :
    (auto_restart_bots env l).effects = (autoRestartLoop env l).2 := by
  rcases l with _ | ⟨hd, tl⟩
  · simp [auto_restart_bots, autoRestartLoop]
  · simp [auto_restart_bots]

/-- On a nonempty registry, `auto_restart_bots` ends with
`save_bots(bots)`, persisting exactly the rebuilt registry. -/
theorem auto_restart_bots_saved (env : OsEnv) (l : Registry) (h : l ≠ []) :
    (auto_restart_bots env l).saved = some (autoRestartLoop env l).1 := by
  simp [auto_restart_bots, h]

/-- A `Forall₂` whose relation forces equal names preserves the list of
names. -/
theorem forall₂_map_fst {R : (String × BotInfo) → (String × BotInfo) → Prop}
    (hR : ∀ a b, R a b → b.1 = a.1) :
    ∀ {l r : Registry}, List.Forall₂ R l r → r.map Prod.fst = l.map Prod.fst := by
  intro l r h
  induction h with
  | nil => rfl
  | cons hab htail ih => simp [hR _ _ hab, ih]

/-- Every member of the right list of a `Forall₂` is related to some
member of the left list. -/
theorem forall₂_mem_right {R : (String × BotInfo) → (String × BotInfo) → Prop}
    {l r : Registry} (h : List.Forall₂ R l r) {b : String × BotInfo} (hb : b ∈ r) :
    ∃ a ∈ l, R a b := by
  induction h with
  | nil => cases hb
  | cons hab htail ih =>
    rcases List.mem_cons.mp hb with h1 | h2
    · exact ⟨_, List.mem_cons_self _ _, h1 ▸ hab⟩
    · obtain ⟨a, ha, hr⟩ := ih h2
      exact ⟨a, List.mem_cons_of_mem _ ha, hr⟩

/-- Every member of the left list of a `Forall₂` is related to some
member of the right list. -/
theorem forall₂_mem_left {R : (String × BotInfo) → (String × BotInfo) → Prop}
    {l r : Registry} (h : List.Forall₂ R l r) {a : String × BotInfo} (ha : a ∈ l) :
    ∃ b ∈ r, R a b := by
  induction h with
  | nil => cases ha
  | cons hab htail ih =>
    rcases List.mem_cons.mp ha with h1 | h2
    · exact ⟨_, List.mem_cons_self _ _, h1 ▸ hab⟩
    · obtain ⟨b, hb, hr⟩ := ih h2
      exact ⟨b, List.mem_cons_of_mem _ hb, hr⟩

end LoopLemmas

section ClaimC2

/-- **C2** — reconciliation with a caught launch failure: for any three
records whose paths all exist, where the second's spawn raises, the
reconciler keeps the second record byte-for-byte unchanged (stale pid
included) while the first and third get freshly updated entries, and
that is also what gets persisted. -/
theorem auto_restart_bots_partial_failure (env : OsEnv)
    (n1 n2 n3 : String) (i1 i2 i3 : BotInfo) (p1 p2 p3 : String) (pid1 pid3 : Int)
    (h1p : truthyPath i1.path = some p1) (h1e : env.pathExists p1 = true)
    (h1l : env.popen p1 n1 = Except.ok pid1)
    (h2p : truthyPath i2.path = some p2) (h2e : env.pathExists p2 = true)
    (h2l : env.popen p2 n2 = Except.error ())
    (h3p : truthyPath i3.path = some p3) (h3e : env.pathExists p3 = true)
    (h3l : env.popen p3 n3 = Except.ok pid3) :
    (auto_restart_bots env [(n1, i1), (n2, i2), (n3, i3)]).registry =
      [(n1, relaunched n1 i1 pid1), (n2, i2), (n3, relaunched n3 i3 pid3)] ∧
    (auto_restart_bots env [(n1, i1), (n2, i2), (n3, i3)]).saved =
      some [(n1, relaunched n1 i1 pid1), (n2, i2), (n3, relaunched n3 i3 pid3)] := by
  have hloop : (autoRestartLoop env [(n1, i1), (n2, i2), (n3, i3)]).1 =
      [(n1, relaunched n1 i1 pid1), (n2, i2), (n3, relaunched n3 i3 pid3)] := by
    rw [autoRestartLoop_cons_ok env n1 i1 _ p1 pid1 h1p h1e h1l]
    rw [autoRestartLoop_cons_err env n2 i2 _ p2 h2p h2e h2l]
    rw [autoRestartLoop_cons_ok env n3 i3 _ p3 pid3 h3p h3e h3l]
    simp [autoRestartLoop]
  constructor
  · rw [auto_restart_bots_registry, hloop]
  · rw [auto_restart_bots_saved env _ (by simp), hloop]

/-- Environment for the C2 witness: every path exists, spawning from
path "bad" raises, every other spawn returns pid 7. -/
def envPF : OsEnv where
  pathExists := fun _ => true
  popen := fun p _ => if p = "bad" then Except.error () else Except.ok 7
  getpgid := fun _ => none
  killpg := fun _ => false
  kill := fun _ => false

/-- **C2 witness** — the partial-failure theorem instantiated on three
concrete records whose middle launch fails. -/
theorem auto_restart_bots_partial_failure_witness :
    (truthyPath (some "pa") = some "pa" ∧ envPF.pathExists "pa" = true ∧
      envPF.popen "pa" "a" = Except.ok 7 ∧
      truthyPath (some "bad") = some "bad" ∧ envPF.pathExists "bad" = true ∧
      envPF.popen "bad" "b" = Except.error () ∧
      truthyPath (some "pc") = some "pc" ∧ envPF.pathExists "pc" = true ∧
      envPF.popen "pc" "c" = Except.ok 7) ∧
    ((auto_restart_bots envPF
        [("a", ⟨some "pa", some 1, none, none⟩), ("b", ⟨some "bad", some 2, none, none⟩),
          ("c", ⟨some "pc", some 3, none, none⟩)]).registry =
      [("a", relaunched "a" ⟨some "pa", some 1, none, none⟩ 7),
        ("b", ⟨some "bad", some 2, none, none⟩),
        ("c", relaunched "c" ⟨some "pc", some 3, none, none⟩ 7)] ∧
    (auto_restart_bots envPF
        [("a", ⟨some "pa", some 1, none, none⟩), ("b", ⟨some "bad", some 2, none, none⟩),
          ("c", ⟨some "pc", some 3, none, none⟩)]).saved =
      some [("a", relaunched "a" ⟨some "pa", some 1, none, none⟩ 7),
        ("b", ⟨some "bad", some 2, none, none⟩),
        ("c", relaunched "c" ⟨some "pc", some 3, none, none⟩ 7)]) :=
  ⟨⟨by decide, rfl, rfl, by decide, rfl, rfl, by decide, rfl, rfl⟩,
    auto_restart_bots_partial_failure envPF "a" "b" "c"
      ⟨some "pa", some 1, none, none⟩ ⟨some "bad", some 2, none, none⟩
      ⟨some "pc", some 3, none, none⟩ "pa" "bad" "pc" 7 7
      (by decide) rfl rfl (by decide) rfl rfl
      (by decide) rfl rfl⟩

end ClaimC2

end RenderDeployer

namespace RenderDeployer

section ClaimC3

/-- A name not present in the registry is not present in the
reconciler loop's output, and no launch attempt is made for it. -/
theorem autoRestartLoop_absent (env : OsEnv) :
    ∀ l : Registry, ∀ n : String, n ∉ l.map Prod.fst →
      n ∉ (autoRestartLoop env l).1.map Prod.fst ∧
      ∀ p, Effect.launch p n ∉ (autoRestartLoop env l).2 := by
  intro l
  induction l with
  | nil => intro n _; simp [autoRestartLoop]
  | cons hd tl ih =>
    intro n h
    obtain ⟨name, info⟩ := hd
    simp only [List.map_cons, List.mem_cons, not_or] at h
    obtain ⟨hne, htl⟩ := h
    have IH := ih n htl
    rcases htp : truthyPath info.path with _ | p
    · rw [autoRestartLoop_cons_skip env name info tl (by intro q hq; rw [htp] at hq; cases hq)]
      exact IH
    · rcases hpe : env.pathExists p with _ | _
      · rw [autoRestartLoop_cons_skip env name info tl
          (by intro q hq; rw [htp] at hq; injection hq with hq2; rwa [hq2] at hpe)]
        exact IH
      · rcases hpo : env.popen p name with e | pid
        · cases e
          rw [autoRestartLoop_cons_err env name info tl p htp hpe hpo]
          refine ⟨?_, ?_⟩
          · simp only [List.map_cons, List.mem_cons, not_or]
            exact ⟨hne, IH.1⟩
          · intro q
            simp only [List.mem_cons, not_or]
            exact ⟨fun hc => hne (Effect.launch.inj hc).2, IH.2 q⟩
        · rw [autoRestartLoop_cons_ok env name info tl p pid htp hpe hpo]
          refine ⟨?_, ?_⟩
          · simp only [List.map_cons, List.mem_cons, not_or]
            exact ⟨hne, IH.1⟩
          · intro q
            simp only [List.mem_cons, not_or]
            exact ⟨fun hc => hne (Effect.launch.inj hc).2, IH.2 q⟩

/-- The reconciler loop on a registry with unique names: a member
record whose `path` is falsy or missing is dropped, and no launch
attempt carries its name. -/
theorem autoRestartLoop_drop_mem (env : OsEnv) :
    ∀ l : Registry, (l.map Prod.fst).Nodup →
      ∀ n i, (n, i) ∈ l →
        (∀ p, truthyPath i.path = some p → env.pathExists p = false) →
        n ∉ (autoRestartLoop env l).1.map Prod.fst ∧
        ∀ p, Effect.launch p n ∉ (autoRestartLoop env l).2 := by
  intro l
  induction l with
  | nil => intro _ n i h; cases h
  | cons hd tl ih =>
    intro hnd n i hmem hbad
    obtain ⟨name, info⟩ := hd
    simp only [List.map_cons, List.nodup_cons] at hnd
    rcases List.mem_cons.mp hmem with heq | hmemtl
    · cases heq
      rw [autoRestartLoop_cons_skip env n i tl (by
        intro p hp
        rcases hpe : env.pathExists p with _ | _
        · rfl
        · exact absurd hpe (by rw [hbad p hp]; exact Bool.false_ne_true))]
      exact autoRestartLoop_absent env tl n hnd.1
    · have hnmem : n ∈ tl.map Prod.fst := List.mem_map_of_mem Prod.fst hmemtl
      have hne : name ≠ n := fun hc => hnd.1 (hc ▸ hnmem)
      have IH := ih hnd.2 n i hmemtl hbad
      rcases htp : truthyPath info.path with _ | p
      · rw [autoRestartLoop_cons_skip env name info tl (by intro q hq; rw [htp] at hq; cases hq)]
        exact IH
      · rcases hpe : env.pathExists p with _ | _
        · rw [autoRestartLoop_cons_skip env name info tl
            (by intro q hq; rw [htp] at hq; injection hq with hq2; rwa [hq2] at hpe)]
          exact IH
        · rcases hpo : env.popen p name with e | pid
          · cases e
            rw [autoRestartLoop_cons_err env name info tl p htp hpe hpo]
            refine ⟨?_, ?_⟩
            · simp only [List.map_cons, List.mem_cons, not_or]
              exact ⟨fun hc => hne hc.symm, IH.1⟩
            · intro q
              simp only [List.mem_cons, not_or]
              exact ⟨fun hc => hne (Effect.launch.inj hc).2.symm, IH.2 q⟩
          · rw [autoRestartLoop_cons_ok env name info tl p pid htp hpe hpo]
            refine ⟨?_, ?_⟩
            · simp only [List.map_cons, List.mem_cons, not_or]
              exact ⟨fun hc => hne hc.symm, IH.1⟩
            · intro q
              simp only [List.mem_cons, not_or]
              exact ⟨fun hc => hne (Effect.launch.inj hc).2.symm, IH.2 q⟩

/-- **C3** — during reconciliation, a record whose `path` is falsy or
does not point to an existing file is dropped: after the run its name
is absent from the in-memory registry, no launch (hence no log-file
creation) was attempted under its name, and the persisted snapshot is
exactly the rebuilt registry, which also lacks it. -/
theorem auto_restart_bots_drop_missing (env : OsEnv) (bots : Registry)
    (hnd : (bots.map Prod.fst).Nodup) (n : String) (i : BotInfo)
    (hmem : (n, i) ∈ bots)
    (hbad : ∀ p, truthyPath i.path = some p → env.pathExists p = false) :
    n ∉ (auto_restart_bots env bots).registry.map Prod.fst ∧
    (∀ p, Effect.launch p n ∉ (auto_restart_bots env bots).effects) ∧
    (auto_restart_bots env bots).saved = some (auto_restart_bots env bots).registry := by
  have hne : bots ≠ [] := by rintro rfl; cases hmem
  have hloop := autoRestartLoop_drop_mem env bots hnd n i hmem hbad
  refine ⟨?_, ?_, ?_⟩
  · rw [auto_restart_bots_registry]
    exact hloop.1
  · intro p
    rw [auto_restart_bots_effects]
    exact hloop.2 p
  · rw [auto_restart_bots_saved env bots hne, auto_restart_bots_registry]

/-- Registry for the C3 witness: the record named "gone" has no path
at all; "b" is healthy. -/
def botsD : Registry :=
  [("gone", ⟨none, some 9, none, none⟩), ("b", ⟨some "pb", some 2, none, none⟩)]

/-- **C3 witness** — the drop theorem instantiated on `botsD` under
`envPF`: "gone" is absent from the result and from the persisted
snapshot, with no launch attempt for it. -/
theorem auto_restart_bots_drop_missing_witness :
    ((botsD.map Prod.fst).Nodup ∧
      ("gone", (⟨none, some 9, none, none⟩ : BotInfo)) ∈ botsD ∧
      (∀ p, truthyPath (⟨none, some 9, none, none⟩ : BotInfo).path = some p →
        envPF.pathExists p = false)) ∧
    ("gone" ∉ (auto_restart_bots envPF botsD).registry.map Prod.fst ∧
      (∀ p, Effect.launch p "gone" ∉ (auto_restart_bots envPF botsD).effects) ∧
      (auto_restart_bots envPF botsD).saved =
        some (auto_restart_bots envPF botsD).registry) :=
  ⟨⟨by decide, by decide, fun _ h => nomatch h⟩,
    auto_restart_bots_drop_missing envPF botsD (by decide) "gone"
      ⟨none, some 9, none, none⟩ (by decide) (fun _ h => nomatch h)⟩

end ClaimC3

end RenderDeployer

namespace RenderDeployer

section ClaimC8

/-- When every record is relaunchable, the reconciler loop relates each
input record to its freshly relaunched image. -/
theorem autoRestartLoop_good (env : OsEnv) :
    ∀ l : Registry, (∀ e ∈ l, goodEntry env e) →
      List.Forall₂ (freshRel env) l (autoRestartLoop env l).1 := by
  intro l
  induction l with
  | nil => intro _; exact List.Forall₂.nil
  | cons hd tl ih =>
    intro h
    obtain ⟨name, info⟩ := hd
    obtain ⟨p, pid, hp, he, ho⟩ := h (name, info) (List.mem_cons_self _ _)
    rw [autoRestartLoop_cons_ok env name info tl p pid hp he ho]
    exact List.Forall₂.cons ⟨rfl, p, pid, hp, he, ho, rfl⟩
      (ih fun e he2 => h e (List.mem_cons_of_mem _ he2))

/-- A freshly relaunched record is itself relaunchable: the relaunch
leaves `path` untouched and the name unchanged. -/
theorem freshRel_good {env : OsEnv} {e r : String × BotInfo} (h : freshRel env e r) :
    goodEntry env r := by
  obtain ⟨hname, p, pid, hp, he, ho, hr⟩ := h
  refine ⟨p, pid, ?_, he, ?_⟩
  · rw [hr]
    simpa [relaunched] using hp
  · rw [hname]
    exact ho

/-- **C8** — reconciliation idempotence: on a registry whose every
record has an existing path and a succeeding launch, each run keeps the
name list identical, and after each run every record is its input
record with `pid`/`log`/`err` overwritten by that run's fresh launch
result (the previously tracked pid is never kept). -/
theorem auto_restart_bots_idempotent_fresh (env : OsEnv) (bots : Registry)
    (hgood : ∀ e ∈ bots, goodEntry env e) :
    (auto_restart_bots env bots).registry.map Prod.fst = bots.map Prod.fst ∧
    List.Forall₂ (freshRel env) bots (auto_restart_bots env bots).registry ∧
    (auto_restart_bots env (auto_restart_bots env bots).registry).registry.map Prod.fst =
      bots.map Prod.fst ∧
    List.Forall₂ (freshRel env) (auto_restart_bots env bots).registry
      (auto_restart_bots env (auto_restart_bots env bots).registry).registry := by
  have h1 : List.Forall₂ (freshRel env) bots (auto_restart_bots env bots).registry := by
    rw [auto_restart_bots_registry]
    exact autoRestartLoop_good env bots hgood
  have hg2 : ∀ e ∈ (auto_restart_bots env bots).registry, goodEntry env e := by
    intro e he
    obtain ⟨a, _, hr⟩ := forall₂_mem_right h1 he
    exact freshRel_good hr
  have h2 : List.Forall₂ (freshRel env) (auto_restart_bots env bots).registry
      (auto_restart_bots env (auto_restart_bots env bots).registry).registry := by
    rw [auto_restart_bots_registry env (auto_restart_bots env bots).registry]
    exact autoRestartLoop_good env _ hg2
  have hf1 : (auto_restart_bots env bots).registry.map Prod.fst = bots.map Prod.fst :=
    forall₂_map_fst (fun a b hab => hab.1) h1
  have hf2 := forall₂_map_fst (fun a b hab => hab.1) h2
  exact ⟨hf1, h1, hf2.trans hf1, h2⟩

/-- Environment for the C8 witness: every path exists and every spawn
succeeds with pid 555. -/
def envG : OsEnv where
  pathExists := fun _ => true
  popen := fun _ _ => Except.ok 555
  getpgid := fun _ => some 1
  killpg := fun _ => true
  kill := fun _ => true

/-- Registry for the C8 witness: one healthy record with stale pid 111. -/
def botsG : Registry := [("a", ⟨some "pa", some 111, none, none⟩)]

/-- **C8 witness** — the idempotence theorem instantiated on `botsG`
under `envG`. -/
theorem auto_restart_bots_idempotent_fresh_witness :
    (∀ e ∈ botsG, goodEntry envG e) ∧
    ((auto_restart_bots envG botsG).registry.map Prod.fst = botsG.map Prod.fst ∧
      List.Forall₂ (freshRel envG) botsG (auto_restart_bots envG botsG).registry ∧
      (auto_restart_bots envG (auto_restart_bots envG botsG).registry).registry.map
        Prod.fst = botsG.map Prod.fst ∧
      List.Forall₂ (freshRel envG) (auto_restart_bots envG botsG).registry
        (auto_restart_bots envG (auto_restart_bots envG botsG).registry).registry) :=
  have h : ∀ e ∈ botsG, goodEntry envG e := by
    intro e he
    simp only [botsG, List.mem_singleton] at he
    subst he
    exact ⟨"pa", 555, by decide, rfl, rfl⟩
  ⟨h, auto_restart_bots_idempotent_fresh envG botsG h⟩

end ClaimC8

section ClaimC9

/-- The `restart_all` loop unfolded on a record whose `path` is falsy
or missing: the record is kept untouched, nothing else changes. -/
theorem restartAllLoop_cons_keep (env : OsEnv) (name : String) (info : BotInfo)
    (rest : Registry)
    (h : ∀ p, truthyPath info.path = some p → env.pathExists p = false) :
    restartAllLoop env ((name, info) :: rest) =
      ((name, info) :: (restartAllLoop env rest).1, (restartAllLoop env rest).2.1,
        (restartAllLoop env rest).2.2.1, (restartAllLoop env rest).2.2.2) := by
  rcases htp : truthyPath info.path with _ | p
  · simp [restartAllLoop, htp]
  · simp [restartAllLoop, htp, h p htp]

/-- The `restart_all` loop unfolded on a record whose launch succeeds. -/
theorem restartAllLoop_cons_ok (env : OsEnv) (name : String) (info : BotInfo)
    (rest : Registry) (p : String) (pid : Int)
    (hp : truthyPath info.path = some p) (he : env.pathExists p = true)
    (ho : env.popen p name = Except.ok pid) :
    restartAllLoop env ((name, info) :: rest) =
      ((name, relaunched name info pid) :: (restartAllLoop env rest).1,
        (restartAllLoop env rest).2.1 + 1,
        Effect.launch p name :: (restartAllLoop env rest).2.2.1,
        (restartAllLoop env rest).2.2.2) := by
  simp [restartAllLoop, hp, he, start_bot_process, ho]

/-- The `restart_all` loop unfolded on a record whose launch raises:
the exception is uncaught, so the loop aborts with everything from this
record on left untouched. -/
theorem restartAllLoop_cons_err (env : OsEnv) (name : String) (info : BotInfo)
    (rest : Registry) (p : String)
    (hp : truthyPath info.path = some p) (he : env.pathExists p = true)
    (ho : env.popen p name = Except.error ()) :
    restartAllLoop env ((name, info) :: rest) =
      ((name, info) :: rest, 0, [Effect.launch p name], false) := by
  simp [restartAllLoop, hp, he, start_bot_process, ho]

/-- Every record relates to itself under `restartRel`. -/
theorem restartRel_refl (env : OsEnv) (e : String × BotInfo) : restartRel env e e :=
  ⟨rfl, Or.inl rfl⟩

/-- The `restart_all` loop preserves the name list, maps each record to
itself or to a successful relaunch of itself, and never emits a
termination signal. -/
theorem restartAllLoop_spec (env : OsEnv) :
    ∀ l : Registry,
      (restartAllLoop env l).1.map Prod.fst = l.map Prod.fst ∧
      List.Forall₂ (restartRel env) l (restartAllLoop env l).1 ∧
      ∀ pid, Effect.term pid ∉ (restartAllLoop env l).2.2.1 := by
  intro l
  induction l with
  | nil =>
    refine ⟨rfl, List.Forall₂.nil, ?_⟩
    intro pid h
    simp [restartAllLoop] at h
  | cons hd tl ih =>
    obtain ⟨name, info⟩ := hd
    obtain ⟨ihf, ihr, ihe⟩ := ih
    rcases htp : truthyPath info.path with _ | p
    · rw [restartAllLoop_cons_keep env name info tl
        (by intro q hq; rw [htp] at hq; cases hq)]
      refine ⟨by simp [ihf], List.Forall₂.cons (restartRel_refl env _) ihr, ?_⟩
      intro pid h
      exact ihe pid h
    · rcases hpe : env.pathExists p with _ | _
      · rw [restartAllLoop_cons_keep env name info tl
          (by intro q hq; rw [htp] at hq; injection hq with hq2; rwa [hq2] at hpe)]
        refine ⟨by simp [ihf], List.Forall₂.cons (restartRel_refl env _) ihr, ?_⟩
        intro pid h
        exact ihe pid h
      · rcases hpo : env.popen p name with e | pid
        · cases e
          rw [restartAllLoop_cons_err env name info tl p htp hpe hpo]
          refine ⟨rfl, ?_, ?_⟩
          · exact List.Forall₂.cons (restartRel_refl env _)
              (List.forall₂_same.mpr fun x _ => restartRel_refl env x)
          · intro pid h
            simp at h
        · rw [restartAllLoop_cons_ok env name info tl p pid htp hpe hpo]
          refine ⟨by simp [ihf], ?_, ?_⟩
          · exact List.Forall₂.cons ⟨rfl, Or.inr ⟨p, pid, htp, hpe, hpo, rfl⟩⟩ ihr
          · intro pid2 h
            rcases List.mem_cons.mp h with hc | hc
            · cases hc
            · exact ihe pid2 hc

/-- The registry the `restart_all` branch leaves in memory is the
loop's rebuilt registry. -/
theorem cb_restart_all_registry (env : OsEnv) (l : Registry) :
    (cb_restart_all env l).1.registry = (restartAllLoop env l).1 := rfl

/-- The effects of the `restart_all` branch are the loop's effects. -/
theorem cb_restart_all_effects (env : OsEnv) (l : Registry) :
    (cb_restart_all env l).1.effects = (restartAllLoop env l).2.2.1 := rfl

/-- **C9** — the `restart_all` branch never shrinks the registry (the
name list is preserved exactly), keeps a record whose `path` is falsy
or missing completely unchanged, only ever replaces a record by a
freshly relaunched copy of itself, and sends no termination signal to
any process. -/
theorem cb_restart_all_frame (env : OsEnv) (bots : Registry) :
    (cb_restart_all env bots).1.registry.map Prod.fst = bots.map Prod.fst ∧
    List.Forall₂ (restartRel env) bots (cb_restart_all env bots).1.registry ∧
    (∀ n i, (n, i) ∈ bots →
      (∀ p, truthyPath i.path = some p → env.pathExists p = false) →
      (n, i) ∈ (cb_restart_all env bots).1.registry) ∧
    ∀ pid, Effect.term pid ∉ (cb_restart_all env bots).1.effects := by
  obtain ⟨hfst, hrel, heff⟩ := restartAllLoop_spec env bots
  refine ⟨?_, ?_, ?_, ?_⟩
  · rw [cb_restart_all_registry]
    exact hfst
  · rw [cb_restart_all_registry]
    exact hrel
  · intro n i hmem hbad
    rw [cb_restart_all_registry]
    obtain ⟨b, hb, hr⟩ := forall₂_mem_left hrel hmem
    obtain ⟨hb1, hb2 | ⟨p, pid, hp, he, _, _⟩⟩ := hr
    · obtain ⟨b1, b2⟩ := b
      dsimp at hb1 hb2
      subst hb1
      subst hb2
      exact hb
    · exact absurd he (by rw [hbad p hp]; exact Bool.false_ne_true)
  · intro pid
    rw [cb_restart_all_effects]
    exact heff pid

end ClaimC9

section ClaimC10

/-- The `stop_all` loop emits exactly one termination attempt per
record with a truthy pid (in order), and counts exactly the records for
which `stop_bot_process` reported success. -/
theorem stopAllLoop_spec (env : OsEnv) :
    ∀ l : Registry,
      (stopAllLoop env l).2 =
        l.filterMap (fun e => (truthyPid e.2.pid).map Effect.term) ∧
      (stopAllLoop env l).1 = (l.filter (stopSuccess env)).length := by
  intro l
  induction l with
  | nil => exact ⟨rfl, rfl⟩
  | cons hd tl ih =>
    obtain ⟨name, info⟩ := hd
    obtain ⟨ihe, ihc⟩ := ih
    rcases htp : truthyPid info.pid with _ | pid
    · constructor
      · simp [stopAllLoop, htp, ihe]
      · simp [stopAllLoop, htp, ihc, List.filter_cons, stopSuccess]
    · constructor
      · simp [stopAllLoop, htp, ihe]
      · rcases hsb : (stop_bot_process env pid).1 with _ | _ <;>
          simp [stopAllLoop, htp, ihc, List.filter_cons, stopSuccess, hsb, Nat.add_comm]

/-- **C10** — in the `stop_all` branch, a record with an absent or zero
pid contributes no termination attempt (the attempts are exactly one
per truthy-pid record), the reported count is exactly the number of
records whose termination signal was delivered successfully, and the
registry is cleared regardless. -/
theorem cb_stop_all_count_and_skip (env : OsEnv) (bots : Registry) :
    (cb_stop_all env bots).1.effects =
      bots.filterMap (fun e => (truthyPid e.2.pid).map Effect.term) ∧
    (cb_stop_all env bots).2 = (bots.filter (stopSuccess env)).length ∧
    (cb_stop_all env bots).1.registry = [] := by
  obtain ⟨he, hc⟩ := stopAllLoop_spec env bots
  exact ⟨he, hc, rfl⟩

end ClaimC10

end RenderDeployer
